import Mathlib

/-!
Verification of the LibratusLounge repository against its specification.

Part A embeds the code actually present under src/: the Worker fetch handler
of src/src/index.ts and the AgentManager durable object
(src/durable-objects/agent-manager.ts, shipped here as an unnamed part).

Part B models the tiered decision cache and router subsystem. The spec states
that this subsystem is documented design and that the code present in the
repository is a trivial stub, so the definitions of Part B are modelled from
the spec text itself; each such definition carries a doc comment starting
with "Modelled from the spec:".
-/

namespace LibratusLounge

/-! ## Part A: the Worker HTTP surface -/

/-- A JSON value, the shape of bodies parsed by request.json() and produced
by JSON.stringify in the Worker code. -/
inductive Json where
  | null : Json
  | bool (b : Bool) : Json
  | num (n : Int) : Json
  | str (s : String) : Json
  | arr (elems : List Json) : Json
  | obj (fields : List (String × Json)) : Json

/-- The part of an incoming Request the fetch handler inspects: the method
and the pathname of the parsed URL. -/
structure HttpRequest where
  method : String
  pathname : String
deriving DecidableEq, Repr

/-- A Response as built by the Worker: status, optional JSON body (none is
the null body of new Response(null, ...)), and headers. -/
structure HttpResponse where
  status : Nat
  body : Option Json
  headers : List (String × String)

/-- The Env binding read by the handler (src/src/types/env.ts): only
ENVIRONMENT is consulted, and it may be unset. -/
structure Env where
  environmentVar : Option String
deriving DecidableEq, Repr

/-- The corsHeaders object of src/src/index.ts, attached to every response. -/
def corsHeaders : List (String × String) :=
  [("Access-Control-Allow-Origin", "*"),
   ("Access-Control-Allow-Methods", "GET, POST, PUT, DELETE, OPTIONS"),
   ("Access-Control-Allow-Headers", "Content-Type, Authorization"),
   ("Access-Control-Max-Age", "86400")]

/-- The Content-Type header pair used on every JSON response. -/
def contentTypeJson : String × String := ("Content-Type", "application/json")

/-- Body of the root route response in src/src/index.ts. -/
def rootBody : Json :=
  Json.obj [("name", Json.str "LibratusLounge"),
            ("version", Json.str "0.1.0"),
            ("status", Json.str "ready"),
            ("message", Json.str "AI Poker Agents API")]

/-- Body of the /health route response; now is the ISO timestamp taken from
the clock, and env.ENVIRONMENT falls back to the string development. -/
def healthBody (env : Env) (now : String) : Json :=
  Json.obj [("status", Json.str "healthy"),
            ("timestamp", Json.str now),
            ("environment", Json.str (env.environmentVar.getD "development"))]

/-- Body of the 404 branch for an unknown pathname. -/
def notFoundBody (pathname : String) : Json :=
  Json.obj [("error", Json.str "Not Found"),
            ("message", Json.str ("Route " ++ pathname ++ " not found"))]

/-- Body of the 500 catch branch; msg is the caught error message. -/
def internalErrorBody (msg : String) : Json :=
  Json.obj [("error", Json.str "Internal Server Error"),
            ("message", Json.str msg)]

/-- The Worker fetch handler of src/src/index.ts. The clock read inside the
/health branch is passed explicitly as now; the catch branch is reached when
routing throws, which is made explicit by the thrown parameter (none means
the try block ran without throwing). -/
def workerFetch (req : HttpRequest) (env : Env) (now : String)
    (thrown : Option String) : HttpResponse :=
  if req.method = "OPTIONS" then
    { status := 200, body := none, headers := corsHeaders }
  else
    match thrown with
    | some msg =>
        { status := 500, body := some (internalErrorBody msg),
          headers := contentTypeJson :: corsHeaders }
    | none =>
        if req.pathname = "/" then
          { status := 200, body := some rootBody,
            headers := contentTypeJson :: corsHeaders }
        else if req.pathname = "/health" then
          { status := 200, body := some (healthBody env now),
            headers := contentTypeJson :: corsHeaders }
        else
          { status := 404, body := some (notFoundBody req.pathname),
            headers := contentTypeJson :: corsHeaders }

/-- AgentManager.createAgent: parses the request body (config, passed here
already parsed), and returns 201 with a fresh agentId built from Date.now()
(passed as nowMs) and the echoed config. No validation is performed. -/
def createAgent (config : Json) (nowMs : Nat) (nowIso : String) : HttpResponse :=
  { status := 201,
    body := some (Json.obj
      [("agentId", Json.str ("agent_" ++ toString nowMs)),
       ("status", Json.str "created"),
       ("config", config),
       ("createdAt", Json.str nowIso)]),
    headers := [contentTypeJson] }

/-- AgentManager.listAgents: the stubbed GET /agents handler. -/
def listAgents : HttpResponse :=
  { status := 200,
    body := some (Json.obj [("agents", Json.arr []), ("total", Json.num 0)]),
    headers := [contentTypeJson] }

/-- The AgentManager durable object fetch routing: GET /agents lists, POST
/agents creates, any other method is 405, any other path 404. The parsed
request body and the two clock reads are explicit parameters. -/
def agentManagerFetch (method pathname : String) (config : Json)
    (nowMs : Nat) (nowIso : String) : HttpResponse :=
  if method = "GET" then
    if pathname = "/agents" then listAgents
    else { status := 404, body := none, headers := [] }
  else if method = "POST" then
    if pathname = "/agents" then createAgent config nowMs nowIso
    else { status := 404, body := none, headers := [] }
  else
    { status := 405, body := none, headers := [] }

/-! ## Part B: the tiered decision cache and router (modelled from the spec) -/

/-- Modelled from the spec: the Decision record, with action in fold, call,
raise, check, all-in. -/
inductive PokerAction where
  | fold : PokerAction
  | call : PokerAction
  | raise : PokerAction
  | check : PokerAction
  | allIn : PokerAction
deriving DecidableEq, Repr

/-- Modelled from the spec: Decision is action, optional amount, confidence
in the unit interval (represented here as an integer percentage 0..100), and
latency. Immutable once returned. -/
structure Decision where
  action : PokerAction
  amount : Option Nat
  confidence : Nat
  latency : Nat
deriving DecidableEq, Repr

/-- Modelled from the spec: the raw Situation input — cards, pot, call
amount, position, per-player stacks, betting history. Immutable once
received. Cards and history moves are encoded as numbers. -/
structure Situation where
  holeCards : List Nat
  communityCards : List Nat
  pot : Nat
  toCall : Nat
  seatIndex : Nat
  playerStacks : List Nat
  bigBlind : Nat
  bettingHistory : List Nat
deriving DecidableEq, Repr

/-- Modelled from the spec: NormalizedFeatures, a fixed-shape record —
bucketized hand-strength score, pot-odds ratio rounded to a fixed
granularity, position category, encoded betting-pattern signature, and
bucketized stack-depth-to-blind value. -/
structure NormalizedFeatures where
  handBucket : Nat
  potOddsBucket : Nat
  positionCategory : Nat
  bettingSignature : Nat
  stackDepthBucket : Nat
deriving DecidableEq, Repr

/-- Modelled from the spec: bucket width for the hand-strength score, a
configuration constant of the normalizer. -/
def handBucketWidth : Nat := 10

/-- Modelled from the spec: granularity for rounding the pot-odds value, a
configuration constant of the normalizer. -/
def potOddsGranularity : Nat := 20

/-- Modelled from the spec: bucket width for the stack-depth-to-blind
value, a configuration constant of the normalizer. -/
def stackBucketWidth : Nat := 5

/-- Modelled from the spec: the fingerprint scheme version, prepended to the
canonical serialization so entries written under a different normalizer
version are never read back. -/
def schemaVersion : Nat := 1

/-- Modelled from the spec: the strategy-level hand-strength scorer. Poker
strategy correctness is an explicit non-goal of the spec, so the scorer is
any fixed deterministic function of the cards; this one mixes hole and
community cards into a score below 100. -/
def handStrengthScore (s : Situation) : Nat :=
  (s.holeCards.foldl (fun a c => a + 7 * c) 0 +
   s.communityCards.foldl (fun a c => a + 3 * c) 0) % 100

/-- Modelled from the spec: the position category of the normalizer — early,
middle, or late position encoded as 0, 1, 2. -/
def positionCategoryOf (seat : Nat) : Nat :=
  if seat ≤ 2 then 0 else if seat ≤ 5 then 1 else 2

/-- Modelled from the spec: the encoded betting-pattern signature, a
deterministic digest of the betting history. -/
def encodeBettingPattern (history : List Nat) : Nat :=
  history.foldl (fun a m => (a * 31 + m + 1) % 65536) 0

/-- Modelled from the spec: normalize maps a Situation to NormalizedFeatures,
purely and deterministically; semantically irrelevant detail (for instance
the exact pot size within one pot-odds bucket) is erased by bucketization. -/
def normalize (s : Situation) : NormalizedFeatures :=
  { handBucket := handStrengthScore s / handBucketWidth,
    potOddsBucket := s.toCall * potOddsGranularity / (s.pot + s.toCall),
    positionCategory := positionCategoryOf s.seatIndex,
    bettingSignature := encodeBettingPattern s.bettingHistory,
    stackDepthBucket :=
      (s.playerStacks.foldl min (s.playerStacks.headD 0)) / s.bigBlind /
        stackBucketWidth }

/-- Modelled from the spec: NormalizationError is raised for a malformed
situation; the situation is well formed when it has exactly two hole cards
and a positive big blind. -/
def wellFormedSituation (s : Situation) : Bool :=
  s.holeCards.length = 2 && 0 < s.bigBlind

/-- Modelled from the spec: the canonical serialization of
NormalizedFeatures, with the scheme version prepended. -/
def serializeFeatures (f : NormalizedFeatures) : List Nat :=
  [schemaVersion, f.handBucket, f.potOddsBucket, f.positionCategory,
   f.bettingSignature, f.stackDepthBucket]

/-- Modelled from the spec: fingerprint is a fixed-length digest of the
canonical serialization of NormalizedFeatures; here a 64-bit polynomial
rolling hash. -/
def fingerprint (f : NormalizedFeatures) : Nat :=
  (serializeFeatures f).foldl (fun h x => (h * 1000003 + x + 1) % 2 ^ 64) 5381

/-- Modelled from the spec: the three tiers, ordered by cost and latency. -/
inductive Tier where
  | Cheap : Tier
  | Moderate : Tier
  | Expensive : Tier
deriving DecidableEq, Repr

/-- Modelled from the spec: the force-cheap rules of the tier classifier — a
trivial pre-flop fold (weak hand facing a bet before the flop) or
overwhelming pot odds. -/
def forceCheapRule (f : NormalizedFeatures) (s : Situation) : Bool :=
  (s.communityCards.isEmpty && f.handBucket ≤ 1 && 0 < s.toCall) ||
  f.potOddsBucket ≤ 1

/-- Modelled from the spec: the known betting-pattern templates; a signature
outside this set is anomalous. -/
def knownPatternTemplates : List Nat := [0, 1, 32, 1024]

/-- Modelled from the spec: the force-expensive rules of the tier
classifier — a multi-way pot with a large river bet, repeated 3-bet action,
or an anomalous betting pattern not matching known templates. -/
def forceExpensiveRule (f : NormalizedFeatures) (s : Situation) : Bool :=
  (3 ≤ s.playerStacks.length && s.communityCards.length = 5 &&
    s.pot ≤ 2 * s.toCall) ||
  (3 ≤ (s.bettingHistory.filter (fun m => m = 3)).length) ||
  (8 ≤ f.bettingSignature && !(knownPatternTemplates.contains f.bettingSignature))

/-- Modelled from the spec: classify evaluates deterministic rules in a
fixed priority order, force-cheap before force-expensive, defaulting to
Moderate. -/
def classify (f : NormalizedFeatures) (s : Situation) : Tier :=
  if forceCheapRule f s then Tier.Cheap
  else if forceExpensiveRule f s then Tier.Expensive
  else Tier.Moderate

/-- Modelled from the spec: the match precision of a cache entry, exact or
similar. -/
inductive Precision where
  | exact : Precision
  | similar : Precision
deriving DecidableEq, Repr

/-- Modelled from the spec: a CacheEntry — the cached Decision, its match
precision, the stored feature vector used for similarity comparison, the
insertion time and the time to live. Timestamps are naturals (seconds). -/
structure CacheEntry where
  decision : Decision
  matchPrecision : Precision
  features : NormalizedFeatures
  insertedAt : Nat
  ttl : Nat
deriving DecidableEq, Repr

/-- Modelled from the spec: TTL differs by precision — longer for exact
matches than for similarity matches. -/
def ttlFor : Precision → Nat
  | Precision.exact => 3600
  | Precision.similar => 600

/-- Modelled from the spec: capacity bound of the fast tier (LRU). -/
def fastCapacity : Nat := 128

/-- Modelled from the spec: the two-level Cache Store — a bounded fast local
tier and an unbounded shared tier, both keyed by fingerprint. Each tier is an
association list ordered by recency of use (most recent first). -/
structure CacheStore where
  fastTier : List (Nat × CacheEntry)
  sharedTier : List (Nat × CacheEntry)
deriving DecidableEq, Repr

/-- Modelled from the spec: look an entry up in one tier and apply the
freshness check — reads must check insertedAt + ttl before returning, so an
expired entry is never returned even if not yet physically evicted. -/
def liveLookup (tier : List (Nat × CacheEntry)) (fp now : Nat) :
    Option CacheEntry :=
  match tier.find? (fun p => p.1 == fp) with
  | some p => if now < p.2.insertedAt + p.2.ttl then some p.2 else none
  | none => none

/-- Modelled from the spec: getExact checks the fast tier first and falls
through to the shared tier on miss. -/
def getExact (c : CacheStore) (fp now : Nat) : Option CacheEntry :=
  match liveLookup c.fastTier fp now with
  | some e => some e
  | none => liveLookup c.sharedTier fp now

/-- Modelled from the spec: put writes the entry to both tiers; the fast
tier keeps at most fastCapacity entries, evicting the least recently used
(the tail of the recency list). -/
def put (c : CacheStore) (fp : Nat) (f : NormalizedFeatures) (d : Decision)
    (p : Precision) (now : Nat) : CacheStore :=
  let e : CacheEntry :=
    { decision := d, matchPrecision := p, features := f,
      insertedAt := now, ttl := ttlFor p }
  { fastTier :=
      (fp, e) :: (c.fastTier.filter (fun q => q.1 != fp)).take (fastCapacity - 1),
    sharedTier := (fp, e) :: c.sharedTier.filter (fun q => q.1 != fp) }

/-- A cache store with both tiers empty. -/
def emptyCache : CacheStore := { fastTier := [], sharedTier := [] }

/-- Modelled from the spec: the Budget Manager rolling-window limit, a
configuration constant. -/
def budgetLimit : Nat := 1000

/-- Modelled from the spec: the estimated cost of invoking each tier; the
Cheap tier is free synchronous rule evaluation. -/
def tierCost : Tier → Nat
  | Tier.Cheap => 0
  | Tier.Moderate => 5
  | Tier.Expensive => 50

/-- Modelled from the spec: BudgetState — cumulative spend within the
current rolling window, plus the window identifier; reset on rollover. -/
structure BudgetState where
  spent : Nat
  windowId : Nat
deriving DecidableEq, Repr

/-- Modelled from the spec: remainingBudget of the current window. -/
def remainingBudget (b : BudgetState) : Nat :=
  budgetLimit - b.spent

/-- Modelled from the spec: canEscalate denies escalation once the
remaining budget of the window is smaller than the estimated cost. -/
def canEscalate (b : BudgetState) (estimatedCost : Nat) : Bool :=
  estimatedCost ≤ remainingBudget b

/-- Modelled from the spec: record charges an actual cost to the window. -/
def record (b : BudgetState) (actualCost : Nat) : BudgetState :=
  { b with spent := b.spent + actualCost }

/-- Modelled from the spec: window rollover resets the spend. -/
def rolloverWindow (b : BudgetState) : BudgetState :=
  { spent := 0, windowId := b.windowId + 1 }

/-- Modelled from the spec: the budget-check loop of the Router state
machine — on DENIED the tier is downgraded, Expensive to Moderate to Cheap,
and checked again; Cheap is free and always allowed, so the loop always
lands on a tier rather than failing the request. -/
def selectTier (b : BudgetState) : Tier → Tier
  | Tier.Cheap => Tier.Cheap
  | Tier.Moderate =>
      if canEscalate b (tierCost Tier.Moderate) then Tier.Moderate
      else Tier.Cheap
  | Tier.Expensive =>
      if canEscalate b (tierCost Tier.Expensive) then Tier.Expensive
      else if canEscalate b (tierCost Tier.Moderate) then Tier.Moderate
      else Tier.Cheap

/-- Modelled from the spec: one Budget Manager client state used to examine
the temporal budget-enforcement property — the budget window together with
the list of tiers the Router actually executed, most recent first. -/
structure RouterTrace where
  budget : BudgetState
  executed : List Tier
deriving DecidableEq, Repr

/-- Modelled from the spec: the effect of one decide call on the budget
window — the requested tier goes through the budget-check loop and the
selected tier is executed and charged atomically. -/
def decideNext (s : RouterTrace) (req : Tier) : RouterTrace :=
  { budget := record s.budget (tierCost (selectTier s.budget req)),
    executed := selectTier s.budget req :: s.executed }

/-- Modelled from the spec: the steps a Router may take between two window
rollovers — any interleaving of decide calls, each with an arbitrary
requested tier. Concurrent load is modelled by this interleaving. -/
inductive DecideStep : RouterTrace → RouterTrace → Prop
  | decide (s : RouterTrace) (req : Tier) : DecideStep s (decideNext s req)

/-- Modelled from the spec: the deterministic Expensive Tier Provider
answer for a fingerprint. The strategy content is a non-goal; any fixed
deterministic function serves. -/
def computeExpensive (fp : Nat) : Decision :=
  { action := if fp % 2 = 0 then PokerAction.call else PokerAction.raise,
    amount := if fp % 2 = 0 then none else some (fp % 97 + 1),
    confidence := 90, latency := 1200 }

/-- Modelled from the spec: the Cheap tier deterministic rule output —
synchronous, never suspends, always a legal decision. -/
def cheapDecision (f : NormalizedFeatures) : Decision :=
  { action := if f.potOddsBucket ≤ 2 then PokerAction.call else PokerAction.fold,
    amount := none, confidence := 30, latency := 1 }

/-- Modelled from the spec: the Moderate tier deterministic output. -/
def moderateDecision (f : NormalizedFeatures) : Decision :=
  { action :=
      if 6 ≤ f.handBucket then PokerAction.raise
      else if f.potOddsBucket ≤ 3 then PokerAction.call
      else PokerAction.fold,
    amount := if 6 ≤ f.handBucket then some (4 * (f.handBucket + 1)) else none,
    confidence := 60, latency := 80 }

/-- Modelled from the spec: a legal Decision — its action is one of the five
allowed moves (enforced by the type) and a raise carries a positive amount. -/
def legalDecision (d : Decision) : Bool :=
  match d.action, d.amount with
  | PokerAction.raise, some a => decide (0 < a)
  | PokerAction.raise, none => false
  | _, _ => true

/-- Modelled from the spec: the per-fingerprint state of the In-Flight
Coordinator together with the observables of the single-flight property —
the ticket (a computed flag and the list of waiting caller ids, the leader
included), the count of Expensive-tier invocations, the decisions delivered
to callers, and the cache slot for this fingerprint. -/
structure SFState where
  ticket : Option (Bool × List Nat)
  expensiveCalls : Nat
  delivered : List (Nat × Decision)
  cache : Option Decision
deriving DecidableEq, Repr

/-- Modelled from the spec: the initial state for a fingerprint with no
pre-existing cache entry and no ticket. -/
def sfInit : SFState :=
  { ticket := none, expensiveCalls := 0, delivered := [], cache := none }

/-- Modelled from the spec: the interleaving semantics of the In-Flight
Coordinator for one fingerprint. A caller that finds a cached decision is
served from the cache; the first caller with no existing ticket becomes
leader and opens the ticket; later callers join the waiter list; the leader
performs the single Expensive-tier invocation; on completion the ticket is
retired, all waiters are released simultaneously with the same result, and
the result is cached. -/
inductive SFStep (fp : Nat) : SFState → SFState → Prop
  | arriveHit (s : SFState) (i : Nat) (d : Decision) (hc : s.cache = some d) :
      SFStep fp s { s with delivered := (i, d) :: s.delivered }
  | arriveLead (s : SFState) (i : Nat) (hc : s.cache = none)
      (ht : s.ticket = none) :
      SFStep fp s { s with ticket := some (false, [i]) }
  | arriveFollow (s : SFState) (i : Nat) (b : Bool) (ws : List Nat)
      (hc : s.cache = none) (ht : s.ticket = some (b, ws)) :
      SFStep fp s { s with ticket := some (b, i :: ws) }
  | leaderCompute (s : SFState) (ws : List Nat)
      (ht : s.ticket = some (false, ws)) :
      SFStep fp s { s with ticket := some (true, ws),
                           expensiveCalls := s.expensiveCalls + 1 }
  | complete (s : SFState) (ws : List Nat)
      (ht : s.ticket = some (true, ws)) :
      SFStep fp s { ticket := none,
                    expensiveCalls := s.expensiveCalls,
                    delivered :=
                      ws.map (fun i => (i, computeExpensive fp)) ++ s.delivered,
                    cache := some (computeExpensive fp) }

/-- Modelled from the spec: the failure modes of one decide request other
than a malformed situation — shared cache unavailable, provider timeout,
provider error, and the overall deadline expiring. -/
structure FailureProfile where
  cacheUnavailable : Bool
  providerTimeout : Bool
  providerError : Bool
  deadlineExceeded : Bool
deriving DecidableEq, Repr

/-- Modelled from the spec: the error taxonomy a decide request could in
principle surface. -/
inductive RouterFailure where
  | normalizationError : RouterFailure
  | cacheUnavailable : RouterFailure
  | providerTimeout : RouterFailure
  | providerError : RouterFailure
  | deadlineExceeded : RouterFailure
deriving DecidableEq, Repr

/-- Modelled from the spec: the Decision Router orchestration for one
request — normalize, cache lookup (skipped when the cache is unavailable),
classify, then compute with graceful degradation: an expired deadline forces
the synchronous Cheap fallback, a provider timeout or error downgrades the
Expensive tier to Moderate. Only a malformed situation is surfaced as an
error. -/
def decideRoute (c : CacheStore) (now : Nat) (s : Situation)
    (fail : FailureProfile) : Except RouterFailure Decision :=
  if wellFormedSituation s then
    match (if fail.cacheUnavailable then none
           else getExact c (fingerprint (normalize s)) now) with
    | some entry => Except.ok entry.decision
    | none =>
        if fail.deadlineExceeded then Except.ok (cheapDecision (normalize s))
        else
          match classify (normalize s) s with
          | Tier.Expensive =>
              if fail.providerTimeout || fail.providerError then
                Except.ok (moderateDecision (normalize s))
              else Except.ok (computeExpensive (fingerprint (normalize s)))
          | Tier.Moderate => Except.ok (moderateDecision (normalize s))
          | Tier.Cheap => Except.ok (cheapDecision (normalize s))
  else Except.error RouterFailure.normalizationError

/-- Modelled from the spec: a cache whose entries all hold legal decisions;
every entry written by the Router satisfies this, since every tier output is
legal. -/
def legalCache (c : CacheStore) : Prop :=
  (∀ p ∈ c.fastTier, legalDecision p.2.decision = true) ∧
  (∀ p ∈ c.sharedTier, legalDecision p.2.decision = true)

/-- Modelled from the spec: the fixed latency cost of the synchronous
Cheap-tier fallback, the epsilon of the deadline-respect property. -/
def cheapLatency : Nat := 1

/-- Modelled from the spec: the induced latencies of the two suspending
tiers for one request. -/
structure TierDelays where
  expensiveDelay : Nat
  moderateDelay : Nat
deriving DecidableEq, Repr

/-- Modelled from the spec: the timed view of one decide request — the
Router waits on the classified tier computation up to the caller deadline;
if the tier cannot complete within the deadline the Router abandons the wait
at the deadline and falls back synchronously to the Cheap tier, paying
cheapLatency more. Returns the decision and the response latency. -/
def decideTimed (s : Situation) (del : TierDelays) (deadline : Nat) :
    Decision × Nat :=
  match classify (normalize s) s with
  | Tier.Expensive =>
      if del.expensiveDelay ≤ deadline then
        (computeExpensive (fingerprint (normalize s)), del.expensiveDelay)
      else (cheapDecision (normalize s), deadline + cheapLatency)
  | Tier.Moderate =>
      if del.moderateDelay ≤ deadline then
        (moderateDecision (normalize s), del.moderateDelay)
      else (cheapDecision (normalize s), deadline + cheapLatency)
  | Tier.Cheap => (cheapDecision (normalize s), cheapLatency)

/-- The inductive invariant of the In-Flight Coordinator model: every
delivered decision is the deterministic Expensive-tier answer, the cache
only ever holds that answer, cache and ticket never coexist, and the count
of Expensive invocations is fixed by the phase — zero before the leader
computes, one afterwards. -/
def SFInv (fp : Nat) (s : SFState) : Prop :=
  (∀ p ∈ s.delivered, p.2 = computeExpensive fp) ∧
  (∀ d, s.cache = some d → d = computeExpensive fp) ∧
  (s.cache = none ∨ s.ticket = none) ∧
  (s.ticket = none → s.cache = none → s.expensiveCalls = 0) ∧
  (∀ ws, s.ticket = some (false, ws) → s.expensiveCalls = 0) ∧
  (∀ ws, s.ticket = some (true, ws) → s.expensiveCalls = 1) ∧
  (s.cache ≠ none → s.expensiveCalls = 1)

/-- Intermediate state of the concrete two-caller single-flight run: caller
0 has arrived and leads. -/
def sfMid1 : SFState :=
  { ticket := some (false, [0]), expensiveCalls := 0, delivered := [],
    cache := none }

/-- Intermediate state: caller 1 has arrived and waits as follower. -/
def sfMid2 : SFState :=
  { ticket := some (false, [1, 0]), expensiveCalls := 0, delivered := [],
    cache := none }

/-- Intermediate state: the leader has performed the one Expensive call. -/
def sfMid3 : SFState :=
  { ticket := some (true, [1, 0]), expensiveCalls := 1, delivered := [],
    cache := none }

/-- Final state of the concrete run: the ticket is retired, both callers
hold the same decision, and the decision is cached. -/
def sfFinal : SFState :=
  { ticket := none, expensiveCalls := 1,
    delivered := [(1, computeExpensive 7), (0, computeExpensive 7)],
    cache := some (computeExpensive 7) }

/-- A trace state whose budget window is fully spent. -/
def exhaustedTrace0 : RouterTrace :=
  { budget := { spent := budgetLimit, windowId := 0 }, executed := [] }

/-- A pre-flop situation with a pot of 501: weak hole cards, one hundred to
call. -/
def sit501 : Situation :=
  { holeCards := [12, 25], communityCards := [], pot := 501, toCall := 100,
    seatIndex := 2, playerStacks := [1000], bigBlind := 10,
    bettingHistory := [1, 2] }

/-- The same situation as sit501 except the semantically irrelevant exact
pot size, 505 instead of 501: same pot-odds bucket. -/
def sit505 : Situation :=
  { holeCards := [12, 25], communityCards := [], pot := 505, toCall := 100,
    seatIndex := 2, playerStacks := [1000], bigBlind := 10,
    bettingHistory := [1, 2] }

/-- A trivial pre-flop fold: weak hand facing a bet, matching the
force-cheap rule. -/
def cheapSit : Situation :=
  { holeCards := [1, 1], communityCards := [], pot := 100, toCall := 50,
    seatIndex := 0, playerStacks := [500, 500], bigBlind := 10,
    bettingHistory := [] }

/-- A multi-way pot with a large river bet, matching the force-expensive
rule and no force-cheap rule. -/
def expSit : Situation :=
  { holeCards := [10, 20], communityCards := [1, 2, 3, 4, 5], pot := 150,
    toCall := 100, seatIndex := 3, playerStacks := [500, 500, 500],
    bigBlind := 10, bettingHistory := [] }

/-- A situation matching neither rule family, classified Moderate. -/
def modSit : Situation :=
  { holeCards := [30, 40], communityCards := [], pot := 400, toCall := 50,
    seatIndex := 1, playerStacks := [500, 500], bigBlind := 10,
    bettingHistory := [] }

/-- A well-formed situation used to exercise the failure-degradation path. -/
def witSit4 : Situation :=
  { holeCards := [8, 21], communityCards := [2, 9, 30], pot := 300,
    toCall := 60, seatIndex := 4, playerStacks := [700, 700], bigBlind := 10,
    bettingHistory := [1, 1] }

/-- A failure profile in which the Expensive provider times out while
everything else is healthy. -/
def timeoutFail : FailureProfile :=
  { cacheUnavailable := false, providerTimeout := true,
    providerError := false, deadlineExceeded := false }

/-! ## Theorems -/

/-- C8: every incoming request whose method is OPTIONS gets a response with
status 200, a null body, and exactly the four CORS headers
(Access-Control-Allow-Origin, Access-Control-Allow-Methods,
Access-Control-Allow-Headers, Access-Control-Max-Age), regardless of the
pathname, the environment, the clock, and whether routing would throw. -/
theorem options_preflight (req : HttpRequest) (env : Env) (now : String)
    (thrown : Option String) (h : req.method = "OPTIONS") :
    workerFetch req env now thrown =
      { status := 200, body := none, headers := corsHeaders } := by
  simp [workerFetch, h]

/-- Witness for C8 at a concrete OPTIONS request with an unrouted pathname. -/
theorem options_preflight_witness :
    workerFetch { method := "OPTIONS", pathname := "/agents/unknown" }
      { environmentVar := none } "2026-01-01T00:00:00Z" none =
      { status := 200, body := none, headers := corsHeaders } :=
  options_preflight { method := "OPTIONS", pathname := "/agents/unknown" }
    { environmentVar := none } "2026-01-01T00:00:00Z" none rfl

/-- C9: every response produced by the Worker fetch handler — the OPTIONS
branch, the root route, the /health route, the 404 branch and the 500 catch
branch — carries the header Access-Control-Allow-Origin with value *. -/
theorem cors_on_every_response (req : HttpRequest) (env : Env) (now : String)
    (thrown : Option String) :
    ("Access-Control-Allow-Origin", "*") ∈
      (workerFetch req env now thrown).headers := by
  unfold workerFetch
  by_cases h1 : req.method = "OPTIONS"
  · simp [h1, corsHeaders]
  · rw [if_neg h1]
    cases thrown with
    | some msg => simp [corsHeaders, contentTypeJson]
    | none =>
        by_cases h2 : req.pathname = "/"
        · simp [h2, corsHeaders, contentTypeJson]
        · by_cases h3 : req.pathname = "/health" <;>
            simp [h2, h3, corsHeaders, contentTypeJson]

/-- C10: a POST to /agents reaches AgentManager.createAgent, which returns
status 201 with agentId equal to the string agent_ followed by the decimal
rendering of Date.now(), and echoes the parsed request body back unchanged
as the config field — for every parseable JSON body, with no validation. -/
theorem create_agent_behavior (config : Json) (nowMs : Nat) (nowIso : String) :
    agentManagerFetch "POST" "/agents" config nowMs nowIso =
      createAgent config nowMs nowIso ∧
    (createAgent config nowMs nowIso).status = 201 ∧
    (createAgent config nowMs nowIso).body =
      some (Json.obj
        [("agentId", Json.str ("agent_" ++ toString nowMs)),
         ("status", Json.str "created"),
         ("config", config),
         ("createdAt", Json.str nowIso)]) :=
  ⟨rfl, rfl, rfl⟩

/-- C2: equal normalization results give equal fingerprints — fingerprint is
a deterministic function of NormalizedFeatures, and normalize is itself a
pure function of the Situation, so situations with identical
NormalizedFeatures share one Fingerprint. -/
theorem fingerprint_deterministic (s1 s2 : Situation)
    (h : normalize s1 = normalize s2) :
    fingerprint (normalize s1) = fingerprint (normalize s2) :=
  congrArg fingerprint h

/-- Witness for C2: two situations differing only in the exact pot size,
501 versus 505, normalize identically and get the same fingerprint. -/
theorem fingerprint_deterministic_witness :
    normalize sit501 = normalize sit505 ∧
    fingerprint (normalize sit501) = fingerprint (normalize sit505) :=
  ⟨by decide, fingerprint_deterministic sit501 sit505 (by decide)⟩

/-- C6: classify is a deterministic total function into the three tiers;
a situation matching a force-cheap rule resolves Cheap regardless of any
other factor, a situation matching a force-expensive rule and no force-cheap
rule resolves Expensive, and a situation matching neither resolves
Moderate — force-cheap is evaluated first, so no situation is ambiguous. -/
theorem classify_deterministic_priority (f : NormalizedFeatures)
    (s : Situation) :
    (classify f s = Tier.Cheap ∨ classify f s = Tier.Moderate ∨
      classify f s = Tier.Expensive) ∧
    (forceCheapRule f s = true → classify f s = Tier.Cheap) ∧
    (forceCheapRule f s = false → forceExpensiveRule f s = true →
      classify f s = Tier.Expensive) ∧
    (forceCheapRule f s = false → forceExpensiveRule f s = false →
      classify f s = Tier.Moderate) := by
  cases hc : forceCheapRule f s <;> cases he : forceExpensiveRule f s <;>
    simp [classify, hc, he]

/-- Witness for C6 at three concrete situations, one per tier. -/
theorem classify_deterministic_priority_witness :
    classify (normalize cheapSit) cheapSit = Tier.Cheap ∧
    classify (normalize expSit) expSit = Tier.Expensive ∧
    classify (normalize modSit) modSit = Tier.Moderate :=
  ⟨(classify_deterministic_priority (normalize cheapSit) cheapSit).2.1
      (by decide),
   (classify_deterministic_priority (normalize expSit) expSit).2.2.1
      (by decide) (by decide),
   (classify_deterministic_priority (normalize modSit) modSit).2.2.2
      (by decide) (by decide)⟩

/-- C7: for every request with deadline D the response latency of the timed
Router view is at most D plus the fixed synchronous Cheap-tier fallback
cost, for every induced tier delay — in particular when the Expensive delay
exceeds D. -/
theorem deadline_respect (s : Situation) (del : TierDelays) (deadline : Nat) :
    (decideTimed s del deadline).2 ≤ deadline + cheapLatency := by
  unfold decideTimed
  cases hcl : classify (normalize s) s <;> simp only
  · omega
  · split <;> omega
  · split <;> omega

/-- C5: an entry inserted by put at time t0 (ttl as fixed by its precision)
is returned by getExact at every time strictly before t0 + ttl and never at
or after t0 + ttl, although the entry is still physically present in the
shared tier. -/
theorem cache_ttl_correct (c : CacheStore) (fp : Nat) (f : NormalizedFeatures)
    (d : Decision) (p : Precision) (t0 t : Nat) :
    (getExact (put c fp f d p t0) fp t =
      if t < t0 + ttlFor p then
        some { decision := d, matchPrecision := p, features := f,
               insertedAt := t0, ttl := ttlFor p }
      else none) ∧
    (fp, { decision := d, matchPrecision := p, features := f,
           insertedAt := t0,
           ttl := ttlFor p }) ∈ (put c fp f d p t0).sharedTier := by
  constructor
  · by_cases h : t < t0 + ttlFor p <;>
      simp [getExact, put, liveLookup, h]
  · simp [put]

/-- If the remaining budget of the window is zero, the budget-check loop
downgrades every requested tier all the way to Cheap. -/
theorem selectTier_cheap_of_exhausted (b : BudgetState)
    (h : remainingBudget b = 0) (req : Tier) :
    selectTier b req = Tier.Cheap := by
  cases req <;> simp [selectTier, canEscalate, tierCost, h]

/-- C3: canEscalate is false whenever the remaining budget is smaller than
the estimated cost; and from any trace state whose window is exhausted,
along every interleaving of decide calls with no intervening rollover, the
window stays exhausted, no executed tier is Expensive, and the budget-check
loop resolves every request to Cheap rather than failing it. -/
theorem budget_enforcement (s s' : RouterTrace)
    (h0 : remainingBudget s.budget = 0)
    (hr : Relation.ReflTransGen DecideStep s s') :
    (∀ (b : BudgetState) (cst : Nat), remainingBudget b < cst →
       canEscalate b cst = false) ∧
    remainingBudget s'.budget = 0 ∧
    (∃ fresh, s'.executed = fresh ++ s.executed ∧
       ∀ t ∈ fresh, t ≠ Tier.Expensive) ∧
    (∀ req, selectTier s'.budget req = Tier.Cheap) := by
  have hA : ∀ (b : BudgetState) (cst : Nat), remainingBudget b < cst →
      canEscalate b cst = false := by
    intro b cst h
    simp only [canEscalate, decide_eq_false_iff_not]
    omega
  have key : remainingBudget s'.budget = 0 ∧
      ∃ fresh, s'.executed = fresh ++ s.executed ∧
        ∀ t ∈ fresh, t ≠ Tier.Expensive := by
    induction hr with
    | refl => exact ⟨h0, [], rfl, by simp⟩
    | @tail mid fin hr1 hstep ih =>
        obtain ⟨hrem, fresh, hexec, hfresh⟩ := ih
        cases hstep with
        | decide req =>
            have hsel : selectTier mid.budget req = Tier.Cheap :=
              selectTier_cheap_of_exhausted mid.budget hrem req
            refine ⟨?_, Tier.Cheap :: fresh, ?_, ?_⟩
            · simp only [decideNext, record, remainingBudget] at hrem ⊢
              omega
            · simp [decideNext, hsel, hexec]
            · intro t ht
              rcases List.mem_cons.mp ht with h1 | h2
              · subst h1; decide
              · exact hfresh t h2
  exact ⟨hA, key.1, key.2, fun req =>
    selectTier_cheap_of_exhausted s'.budget key.1 req⟩

/-- Witness for C3: one decide call requesting Expensive from an exhausted
window executes Cheap and leaves the window exhausted. -/
theorem budget_enforcement_witness :
    (∀ (b : BudgetState) (cst : Nat), remainingBudget b < cst →
       canEscalate b cst = false) ∧
    remainingBudget (decideNext exhaustedTrace0 Tier.Expensive).budget = 0 ∧
    (∃ fresh, (decideNext exhaustedTrace0 Tier.Expensive).executed =
        fresh ++ exhaustedTrace0.executed ∧
       ∀ t ∈ fresh, t ≠ Tier.Expensive) ∧
    (∀ req, selectTier (decideNext exhaustedTrace0 Tier.Expensive).budget req =
       Tier.Cheap) :=
  budget_enforcement exhaustedTrace0 (decideNext exhaustedTrace0 Tier.Expensive)
    (by decide)
    (Relation.ReflTransGen.single
      (DecideStep.decide exhaustedTrace0 Tier.Expensive))

/-- A live lookup only ever returns an entry stored in the examined tier. -/
theorem liveLookup_mem (tier : List (Nat × CacheEntry)) (fp now : Nat)
    (e : CacheEntry) (h : liveLookup tier fp now = some e) :
    ∃ k, (k, e) ∈ tier := by
  unfold liveLookup at h
  cases hf : tier.find? (fun p => p.1 == fp) with
  | none => rw [hf] at h; exact absurd h (by simp)
  | some p =>
      rw [hf] at h
      have h2 : (if now < p.2.insertedAt + p.2.ttl then some p.2 else none) =
          some e := h
      by_cases hfresh : now < p.2.insertedAt + p.2.ttl
      · rw [if_pos hfresh] at h2
        refine ⟨p.1, ?_⟩
        have hp : p ∈ tier := List.mem_of_find?_eq_some hf
        have hpe : p.2 = e := Option.some.inj h2
        rw [← hpe]
        exact hp
      · rw [if_neg hfresh] at h2
        exact absurd h2 (by simp)

/-- getExact only ever returns an entry stored in one of the two tiers. -/
theorem getExact_mem (c : CacheStore) (fp now : Nat) (e : CacheEntry)
    (h : getExact c fp now = some e) :
    (∃ k, (k, e) ∈ c.fastTier) ∨ (∃ k, (k, e) ∈ c.sharedTier) := by
  unfold getExact at h
  cases hfast : liveLookup c.fastTier fp now with
  | some e1 =>
      rw [hfast] at h
      exact Or.inl (Option.some.inj h ▸ liveLookup_mem _ _ _ _ hfast)
  | none =>
      rw [hfast] at h
      exact Or.inr (liveLookup_mem _ _ _ _ h)

/-- The Cheap tier rule output is always a legal decision. -/
theorem cheapDecision_legal (f : NormalizedFeatures) :
    legalDecision (cheapDecision f) = true := by
  by_cases h : f.potOddsBucket ≤ 2 <;> simp [cheapDecision, legalDecision, h]

/-- The Moderate tier output is always a legal decision. -/
theorem moderateDecision_legal (f : NormalizedFeatures) :
    legalDecision (moderateDecision f) = true := by
  by_cases h6 : 6 ≤ f.handBucket
  · simp [moderateDecision, legalDecision, h6]
  · by_cases h3 : f.potOddsBucket ≤ 3 <;>
      simp [moderateDecision, legalDecision, h6, h3]

/-- The Expensive provider answer is always a legal decision. -/
theorem computeExpensive_legal (fp : Nat) :
    legalDecision (computeExpensive fp) = true := by
  by_cases h : fp % 2 = 0 <;> simp [computeExpensive, legalDecision, h]

/-- C4: a decide request surfaces an error only for a malformed situation,
and that error is NormalizationError; under every other failure mode —
cache unavailable, provider timeout, provider error, deadline exceeded —
and for every well-formed situation, the caller receives a legal Decision,
because degradation bottoms out at the always-available Cheap tier. -/
theorem error_propagation (c : CacheStore) (now : Nat) (s : Situation)
    (fail : FailureProfile) (hc : legalCache c) :
    (∀ e, decideRoute c now s fail = Except.error e →
       e = RouterFailure.normalizationError ∧ wellFormedSituation s = false) ∧
    (wellFormedSituation s = true →
       ∃ d, decideRoute c now s fail = Except.ok d ∧
         legalDecision d = true) := by
  have hok : wellFormedSituation s = true →
      ∃ d, decideRoute c now s fail = Except.ok d ∧
        legalDecision d = true := by
    intro hw
    unfold decideRoute
    rw [if_pos hw]
    cases hcache : (if fail.cacheUnavailable then none
        else getExact c (fingerprint (normalize s)) now) with
    | some entry =>
        refine ⟨entry.decision, rfl, ?_⟩
        by_cases hcu : fail.cacheUnavailable
        · rw [if_pos hcu] at hcache
          exact absurd hcache (by simp)
        · rw [if_neg hcu] at hcache
          rcases getExact_mem c _ now entry hcache with ⟨k, hk⟩ | ⟨k, hk⟩
          · exact hc.1 (k, entry) hk
          · exact hc.2 (k, entry) hk
    | none =>
        by_cases hdl : fail.deadlineExceeded
        · rw [if_pos hdl]
          exact ⟨cheapDecision (normalize s), rfl, cheapDecision_legal _⟩
        · rw [if_neg hdl]
          cases hcl : classify (normalize s) s with
          | Expensive =>
              by_cases hpe : fail.providerTimeout || fail.providerError
              · rw [if_pos hpe]
                exact ⟨moderateDecision (normalize s), rfl,
                  moderateDecision_legal _⟩
              · rw [if_neg hpe]
                exact ⟨computeExpensive (fingerprint (normalize s)), rfl,
                  computeExpensive_legal _⟩
          | Moderate =>
              exact ⟨moderateDecision (normalize s), rfl,
                moderateDecision_legal _⟩
          | Cheap =>
              exact ⟨cheapDecision (normalize s), rfl, cheapDecision_legal _⟩
  refine ⟨?_, hok⟩
  intro e he
  by_cases hw : wellFormedSituation s = true
  · obtain ⟨d, hd, _⟩ := hok hw
    rw [hd] at he
    exact absurd he (by simp)
  · have hw0 : wellFormedSituation s = false := by
      cases hwf : wellFormedSituation s
      · rfl
      · exact absurd hwf hw
    constructor
    · unfold decideRoute at he
      rw [hw0] at he
      simp only [Bool.false_eq_true, if_false] at he
      exact (Except.error.inj he).symm
    · exact hw0

/-- Witness for C4: a provider timeout on a well-formed situation with an
empty (hence trivially legal) cache still yields a legal decision. -/
theorem error_propagation_witness :
    ∃ d, decideRoute emptyCache 0 witSit4 timeoutFail = Except.ok d ∧
      legalDecision d = true :=
  (error_propagation emptyCache 0 witSit4 timeoutFail
      ⟨by simp [emptyCache], by simp [emptyCache]⟩).2 (by decide)

/-- The single-flight invariant holds in the initial state. -/
theorem sfInv_init (fp : Nat) : SFInv fp sfInit := by
  refine ⟨?_, ?_, ?_, ?_, ?_, ?_, ?_⟩ <;> simp [sfInit]

/-- Every step of the In-Flight Coordinator preserves the single-flight
invariant. -/
theorem sfInv_preserved (fp : Nat) (s s' : SFState) (hstep : SFStep fp s s')
    (hinv : SFInv fp s) : SFInv fp s' := by
  obtain ⟨hdel, hcv, hmx, h00, hf0, ht1, hc1⟩ := hinv
  cases hstep with
  | arriveHit i d hcch =>
      refine ⟨?_, hcv, hmx, h00, hf0, ht1, hc1⟩
      intro p hp
      rcases List.mem_cons.mp hp with h1 | h2
      · rw [h1]
        exact hcv d hcch
      · exact hdel p h2
  | arriveLead i hcch ht =>
      refine ⟨hdel, hcv, Or.inl hcch, ?_, ?_, ?_, ?_⟩
      · intro hx
        exact absurd hx (by simp)
      · intro ws hws
        exact h00 ht hcch
      · intro ws hws
        exact absurd hws (by simp)
      · intro hx
        exact absurd hcch hx
  | arriveFollow i b ws hcch ht =>
      refine ⟨hdel, hcv, Or.inl hcch, ?_, ?_, ?_, ?_⟩
      · intro hx
        exact absurd hx (by simp)
      · intro ws1 hws
        have hb : b = false := by
          have := (Prod.mk.injEq _ _ _ _).mp
            (Option.some.inj hws)
          exact this.1
        exact hf0 ws (hb ▸ ht)
      · intro ws1 hws
        have hb : b = true := by
          have := (Prod.mk.injEq _ _ _ _).mp
            (Option.some.inj hws)
          exact this.1
        exact ht1 ws (hb ▸ ht)
      · intro hx
        exact absurd hcch hx
  | leaderCompute ws ht =>
      have hcch : s.cache = none := by
        rcases hmx with h | h
        · exact h
        · rw [h] at ht
          exact absurd ht (by simp)
      refine ⟨hdel, hcv, Or.inl hcch, ?_, ?_, ?_, ?_⟩
      · intro hx
        exact absurd hx (by simp)
      · intro ws1 hws
        exact absurd (((Prod.mk.injEq _ _ _ _).mp
          (Option.some.inj hws)).1) (by simp)
      · intro ws1 hws
        rw [hf0 ws ht]
      · intro hx
        exact absurd hcch hx
  | complete ws ht =>
      refine ⟨?_, ?_, Or.inr rfl, ?_, ?_, ?_, ?_⟩
      · intro p hp
        rcases List.mem_append.mp hp with h1 | h2
        · obtain ⟨i, _, hi⟩ := List.mem_map.mp h1
          rw [← hi]
        · exact hdel p h2
      · intro d hd
        exact (Option.some.inj hd).symm
      · intro hx hcn
        exact absurd hcn (by simp)
      · intro ws1 hws
        exact absurd hws (by simp)
      · intro ws1 hws
        exact absurd hws (by simp)
      · intro hx
        exact ht1 ws ht

/-- The single-flight invariant holds in every reachable state. -/
theorem sfInv_reachable (fp : Nat) (s : SFState)
    (h : Relation.ReflTransGen (SFStep fp) sfInit s) : SFInv fp s := by
  induction h with
  | refl => exact sfInv_init fp
  | tail hr1 hstep ih => exact sfInv_preserved fp _ _ hstep ih

/-- C1: in every state reachable from no cache entry and no ticket, under
any interleaving of concurrent callers for one fingerprint, at most one
Expensive-tier invocation has occurred, and any two decisions delivered to
callers agree on action and amount. -/
theorem single_flight (fp : Nat) (s : SFState)
    (h : Relation.ReflTransGen (SFStep fp) sfInit s) :
    s.expensiveCalls ≤ 1 ∧
    ∀ p ∈ s.delivered, ∀ q ∈ s.delivered,
      p.2.action = q.2.action ∧ p.2.amount = q.2.amount := by
  obtain ⟨hdel, hcv, hmx, h00, hf0, ht1, hc1⟩ := sfInv_reachable fp s h
  constructor
  · cases ht : s.ticket with
    | none =>
        cases hcch : s.cache with
        | none => rw [h00 ht hcch]; decide
        | some d => rw [hc1 (by rw [hcch]; simp)]
    | some pair =>
        cases pair with
        | mk b ws =>
            cases b
            · rw [hf0 ws ht]; decide
            · rw [ht1 ws ht]
  · intro p hp q hq
    rw [hdel p hp, hdel q hq]
    exact ⟨rfl, rfl⟩

/-- Witness for C1: a concrete run with two concurrent callers for
fingerprint 7 — caller 0 leads, caller 1 follows, one Expensive call is
made, and both callers receive the same decision. -/
theorem single_flight_witness :
    sfFinal.expensiveCalls ≤ 1 ∧
    ∀ p ∈ sfFinal.delivered, ∀ q ∈ sfFinal.delivered,
      p.2.action = q.2.action ∧ p.2.amount = q.2.amount := by
  refine single_flight 7 sfFinal ?_
  have h1 : SFStep 7 sfInit sfMid1 := SFStep.arriveLead sfInit 0 rfl rfl
  have h2 : SFStep 7 sfMid1 sfMid2 :=
    SFStep.arriveFollow sfMid1 1 false [0] rfl rfl
  have h3 : SFStep 7 sfMid2 sfMid3 := SFStep.leaderCompute sfMid2 [1, 0] rfl
  have h4 : SFStep 7 sfMid3 sfFinal := SFStep.complete sfMid3 [1, 0] rfl
  exact (((Relation.ReflTransGen.refl.tail h1).tail h2).tail h3).tail h4

end LibratusLounge
